import Mathlib

/-
  Verification of the CubeCraft Resource-Pack Debloater (src/patcher.py)
  against its natural-language specification.

  The program is a shallow embedding: each Python function of patcher.py
  becomes a Lean definition over an explicit model of the filesystem state
  and of the environment (which operations succeed, which fail, what the
  network returns).  Paths are lists of components; a directory tree is an
  inductive value; observable side effects (backup creation, removals under
  the target, staging-directory lifecycle) are recorded in an event trace so
  that ordering properties can be stated.

  Failure modelling: every operation that can raise in Python is given a
  Boolean oracle in the environment (for per-entry operations, an oracle
  keyed by the entry name).  A raised exception becomes an Except.error;
  exceptions that the Python code leaves uncaught become a crashed outcome
  of the orchestrator.
-/

namespace Patcher

/-- A directory tree: either a file (with abstract content) or a directory
with an ordered list of named children (order models `os.listdir` order). -/
inductive FsTree where
  | file (data : Nat)
  | dir (children : List (String × FsTree))

/-- An immediate child of the patch target directory. -/
structure FsEntry where
  name : String
  tree : FsTree

/-- State of the patch target directory: whether it exists on disk, and its
immediate children when it does. -/
structure TargetFs where
  present : Bool
  entries : List FsEntry

/-- Observable side effects of one session, in the order they happen. -/
inductive Event where
  | targetCreated
  | backupCreated
  | removedTargetEntry (name : String)
  | tmpdirCreated
  | downloadStarted
  | extractionStarted
  | copiedEntry (name : String)
  | tmpdirRemoved
deriving DecidableEq, Repr

/-- patcher.py line 77-78: the sibling backup path
`<parent>/<basename>_backup_<timestamp>`. -/
def backupPathOf (folder : List String) (stamp : String) : List String :=
  folder.dropLast ++ [folder.getLastD "" ++ "_backup_" ++ stamp]

/-- patcher.py lines 71-82, `make_backup(folder)`.
If the folder does not exist, returns None and does nothing (line 72-74).
Otherwise performs `shutil.copytree(folder, backup_path)` (line 80), which
only reads the source folder; its success is the oracle `copyOk`, and a
raised exception is the error case.  On success the backup path is returned
and a backupCreated event is emitted. -/
def make_backup (fs : TargetFs) (copyOk : Bool) (folder : List String)
    (stamp : String) : Except String (Option (List String) × List Event) :=
  if !fs.present then .ok (none, [])
  else if copyOk then .ok (some (backupPathOf folder stamp), [Event.backupCreated])
  else .error "BackupFailure"

/-- patcher.py lines 90-98: the per-entry loop of `clear_folder_contents`.
For each child, `shutil.rmtree` / `os.remove` succeeds iff the oracle
`removeOk` allows it; a failure is caught, printed as a warning and the
loop continues (lines 97-98).  Returns (children left in place, warning
messages, removal events), each in enumeration order. -/
def clearLoop (removeOk : String → Bool) :
    List FsEntry → List FsEntry × List String × List Event
  | [] => ([], [], [])
  | e :: rest =>
    let r := clearLoop removeOk rest
    if removeOk e.name then
      (r.1, r.2.1, Event.removedTargetEntry e.name :: r.2.2)
    else
      (e :: r.1, e.name :: r.2.1, r.2.2)

/-- patcher.py lines 84-99, `clear_folder_contents(folder)`.
If the folder does not exist it is created empty (lines 85-88).  Otherwise
`os.listdir(folder)` (line 90) can itself raise — oracle `listOk`; that
exception is uncaught inside the function, so it is the error case.  The
per-entry removals are best-effort (see clearLoop). -/
def clear_folder_contents (fs : TargetFs) (listOk : Bool)
    (removeOk : String → Bool) :
    Except String (TargetFs × List String × List Event) :=
  if !fs.present then .ok (⟨true, []⟩, [], [Event.targetCreated])
  else if !listOk then .error "ClearFailure"
  else
    let r := clearLoop removeOk fs.entries
    .ok (⟨true, r.1⟩, r.2.1, r.2.2)

/-- Observable events of one download: each chunk written to the file, and
each progress line printed. `progressPlain` is the degraded bytes-so-far-only
progress form the specification describes; the code never produces it, the
constructor exists so the specified behaviour is expressible. -/
inductive DlEvent where
  | chunk (size : Nat)
  | progress (sofar total : Nat)
  | progressPlain (sofar : Nat)
  | completeWithTotal (sofar total : Nat)
  | completePlain
deriving DecidableEq, Repr

/-- patcher.py lines 109-116: the chunk loop of `download_zip`.
`total` is the parsed content length (`None` when the header is missing or
non-numeric, line 105-106).  Empty chunks are skipped without a write
(lines 110-111).  After each written chunk the byte counter advances and,
only under Python truthiness of `total` (line 114: `if total:` — false for
None and for 0), a (bytes-so-far, total) progress line is printed. -/
def dlLoop (total : Option Nat) (downloaded : Nat) :
    List Nat → List DlEvent × Nat
  | [] => ([], downloaded)
  | c :: rest =>
    if c = 0 then dlLoop total downloaded rest
    else
      let d := downloaded + c
      let r := dlLoop total d rest
      if total.getD 0 ≠ 0 then
        (DlEvent.chunk c :: DlEvent.progress d (total.getD 0) :: r.1, r.2)
      else
        (DlEvent.chunk c :: r.1, r.2)

/-- patcher.py lines 101-121, `download_zip(url, dest_path)`.
`statusOk` is the oracle for `r.raise_for_status()` and connection success
(line 104); `contentLength` is the content-length header after the
`total and total.isdigit()` parse of lines 105-106; `chunks` are the sizes
`requests` yields.  After the loop, a final line is printed: with a truthy
total, the 100% line (line 117-118), otherwise "download complete."
(line 120). -/
def download_zip (statusOk : Bool) (contentLength : Option Nat)
    (chunks : List Nat) : Except String (List DlEvent) :=
  if !statusOk then .error "FetchFailure"
  else
    let r := dlLoop contentLength 0 chunks
    if contentLength.getD 0 ≠ 0 then
      .ok (r.1 ++ [DlEvent.completeWithTotal r.2 (contentLength.getD 0)])
    else
      .ok (r.1 ++ [DlEvent.completePlain])

/-- One entry of the downloaded archive: its stored filename split on the
separator into components, and whether it is a directory entry. -/
structure ZipEntry where
  parts : List String
  isDir : Bool

/-- The path components CPython's zipfile extraction drops. -/
def badParts : List String := ["", ".", ".."]

/-- CPython zipfile._extract_member path sanitisation, as invoked by
`z.extractall(dest_dir)` on line 126 of patcher.py: the drive is split off
and every "", "." and ".." component is removed before joining under the
destination.  (The additional Windows illegal-character replacement is
irrelevant to path containment and is not modelled.) -/
def sanitizeParts (parts : List String) : List String :=
  parts.filter (fun p => !badParts.contains p)

/-- Extraction of one archive member: the sanitised name is joined under the
destination directory; an entry whose sanitised name is empty and which is
not a directory raises ValueError in CPython. -/
def extractMember (destDir : List String) (e : ZipEntry) :
    Except String (List String) :=
  if (sanitizeParts e.parts).isEmpty && !e.isDir then .error "ExtractFailure"
  else .ok (destDir ++ sanitizeParts e.parts)

/-- The member loop of `z.extractall(dest_dir)`: extract each entry in
archive order, stopping at the first raised exception. -/
def extractLoop (destDir : List String) :
    List ZipEntry → Except String (List (List String))
  | [] => .ok []
  | e :: rest =>
    match extractMember destDir e with
    | .error m => .error m
    | .ok p =>
      match extractLoop destDir rest with
      | .error m => .error m
      | .ok ps => .ok (p :: ps)

/-- patcher.py lines 123-128, `extract_zip(zip_path, dest_dir)`.
`zipOk` is the oracle for opening the archive (`zipfile.BadZipFile` on a
malformed file, read errors).  Every entry is extracted; the returned list
is the filesystem path written for each entry, in archive order. -/
def extract_zip (zipOk : Bool) (zipPath destDir : List String)
    (entries : List ZipEntry) : Except String (List (List String)) :=
  if !zipOk then .error "ExtractFailure"
  else extractLoop destDir entries

/-- Naive path resolution of components against a starting absolute path:
".." pops one component (staying at the root if already there), "." and ""
are skipped.  Used only to state what an archive path would resolve to if
it were joined without sanitisation. -/
def resolveParts (stack : List String) : List String → List String
  | [] => stack
  | p :: rest =>
    if p = ".." then resolveParts stack.dropLast rest
    else if p = "." || p = "" then resolveParts stack rest
    else resolveParts (stack ++ [p]) rest

/-- An archive path resolves outside a destination when the resolved path
does not lie under the destination. -/
def resolvesOutside (destDir parts : List String) : Bool :=
  !((resolveParts destDir parts).take destDir.length == destDir)

/-- An immediate child of the extraction root, as seen by the merge loop. -/
structure MergeEntry where
  name : String
  isDir : Bool
  tree : FsTree

/-- Replace the child named `n` of a directory, or append it. -/
def setChild (cs : List (String × FsTree)) (n : String) (t : FsTree) :
    List (String × FsTree) :=
  if cs.any (fun c => c.1 == n) then
    cs.map (fun c => if c.1 == n then (n, t) else c)
  else cs ++ [(n, t)]

/-- `shutil.copy2(src, dst)` on line 149 of patcher.py: when `dst` names an
existing directory the file is copied inside it under its own basename;
when it names an existing file that file is overwritten; otherwise the file
is created. -/
def fileCopyInto (tgt : List FsEntry) (n : String) (t : FsTree) :
    List FsEntry :=
  match tgt.find? (fun f => f.name == n) with
  | some f =>
    match f.tree with
    | .dir cs => tgt.map (fun g => if g.name == n then ⟨n, .dir (setChild cs n t)⟩ else g)
    | .file _ => tgt.map (fun g => if g.name == n then ⟨n, t⟩ else g)
  | none => tgt ++ [⟨n, t⟩]

/-- Result of the merge loop: normal return with (applied names, resulting
target children, warnings, events), or a raised exception carrying the
partially mutated target and the events that already happened. -/
inductive MergeOut where
  | ok (applied : List String) (tgt : List FsEntry) (warns : List String)
      (evs : List Event)
  | err (msg : String) (tgt : List FsEntry) (evs : List Event)

/-- patcher.py lines 136-143: the try-guarded removal of an existing target
entry that collides with a directory being merged.  A removal failure is
caught and reported as a warning only.  Returns (target children after the
attempt, warnings, removal events). -/
def mergeRemoveExisting (removeOk : String → Bool) (tgt : List FsEntry)
    (n : String) : List FsEntry × List String × List Event :=
  if tgt.any (fun f => f.name == n) then
    if removeOk n then
      (tgt.filter (fun f => !(f.name == n)), [],
       [Event.removedTargetEntry n])
    else (tgt, ["failed to remove existing " ++ n], [])
  else (tgt, [], [])

/-- patcher.py lines 130-153, `copy_top_level_folders(src_root, dst_root)`.
For each child of the extraction root, in enumeration order:
- directory child (lines 135-146): if an entry of the same name exists under
  the target it is first removed inside a try (lines 136-143) — a failure
  there is only a warning; then `shutil.copytree(src, dst)` runs OUTSIDE any
  try (line 144): it raises when the destination still exists or when the
  copy itself fails (oracle `copyOk`), and that exception propagates,
  aborting the whole loop; on success the name is appended to `applied`;
- file child (lines 147-152): `shutil.copy2` inside a try — a failure is
  only a warning and the entry is skipped; the name is never appended. -/
def copy_top_level_folders (removeOk copyOk : String → Bool) :
    List MergeEntry → List FsEntry → MergeOut
  | [], tgt => .ok [] tgt [] []
  | e :: rest, tgt =>
    if e.isDir then
      let step := mergeRemoveExisting removeOk tgt e.name
      if step.1.any (fun f => f.name == e.name) || !copyOk e.name then
        .err "copytree failed" step.1 step.2.2
      else
        match copy_top_level_folders removeOk copyOk rest
            (step.1 ++ [⟨e.name, e.tree⟩]) with
        | .ok applied tgt2 warns evs =>
          .ok (e.name :: applied) tgt2 (step.2.1 ++ warns)
            (step.2.2 ++ Event.copiedEntry e.name :: evs)
        | .err m tgt2 evs =>
          .err m tgt2 (step.2.2 ++ Event.copiedEntry e.name :: evs)
    else
      if copyOk e.name then
        match copy_top_level_folders removeOk copyOk rest
            (fileCopyInto tgt e.name e.tree) with
        | .ok applied tgt2 warns evs =>
          .ok applied tgt2 warns (Event.copiedEntry e.name :: evs)
        | .err m tgt2 evs => .err m tgt2 (Event.copiedEntry e.name :: evs)
      else
        match copy_top_level_folders removeOk copyOk rest tgt with
        | .ok applied tgt2 warns evs =>
          .ok applied tgt2 (("Skipped non-dir item: " ++ e.name) :: warns) evs
        | .err m tgt2 evs => .err m tgt2 evs

/-- The caller-chosen action: keys "1"/"2"/"3" of the catalog apply a patch,
key "4" is the clear-only action (patcher.py lines 59-69 and 164/174). -/
inductive Action where
  | clearOnly
  | applyPatch
deriving DecidableEq, Repr

/-- How a session ends: normal completion; the catch-all `except` of
line 196 (patch application failed but the program continues); or an
exception the code leaves entirely uncaught (backup or clear failure). -/
inductive Outcome where
  | done (backup : Option (List String)) (applied : List String)
  | failed (backup : Option (List String)) (msg : String)
  | crashed (msg : String)
deriving DecidableEq, Repr

/-- The session report together with the event trace and the final state of
the target directory. -/
structure SessionResult where
  outcome : Outcome
  trace : List Event
  finalFs : TargetFs

/-- The environment of one session: the chosen target path and timestamp,
the prior filesystem state, and the oracles for every fallible operation. -/
structure Env where
  target : List String
  stamp : String
  targetPresent : Bool
  targetEntries : List FsEntry
  backupCopyOk : Bool
  listOk : Bool
  removeOk : String → Bool
  statusOk : Bool
  contentLength : Option Nat
  chunks : List Nat
  tmpdir : List String
  zipOk : Bool
  zipEntries : List ZipEntry
  srcEntries : List MergeEntry
  mergeRemoveOk : String → Bool
  copyOk : String → Bool

/-- patcher.py lines 155-203, `main()`, after abstracting the interactive
prompts into the chosen `Action` (spec section 9: control-flow-as-UI).
Lines 160-162: the target is created when absent — before any backup.
Lines 164-172 (action "4"): backup, then clear, then Done; both calls are
outside any try, so their exceptions crash the program.
Lines 179-203 (apply): backup and clear (also outside any try, lines
181-182), then the staging tmpdir is created (line 184), then the
download → extract → merge pipeline runs inside try/except with a finally
that removes the tmpdir (lines 186-201).  `env.srcEntries` stands for
`os.listdir(extract_dir)` after a successful extraction. -/
def main (env : Env) (action : Action) : SessionResult :=
  let fs0 : TargetFs :=
    if env.targetPresent then ⟨true, env.targetEntries⟩ else ⟨true, []⟩
  let ev0 : List Event := if env.targetPresent then [] else [Event.targetCreated]
  match make_backup fs0 env.backupCopyOk env.target env.stamp with
  | .error msg => ⟨.crashed msg, ev0, fs0⟩
  | .ok (backup, evB) =>
    match clear_folder_contents fs0 env.listOk env.removeOk with
    | .error msg => ⟨.crashed msg, ev0 ++ evB, fs0⟩
    | .ok (fs1, _warns, evC) =>
      match action with
      | .clearOnly => ⟨.done backup [], ev0 ++ evB ++ evC, fs1⟩
      | .applyPatch =>
        let evD := ev0 ++ evB ++ evC ++ [Event.tmpdirCreated, Event.downloadStarted]
        match download_zip env.statusOk env.contentLength env.chunks with
        | .error msg => ⟨.failed backup msg, evD ++ [Event.tmpdirRemoved], fs1⟩
        | .ok _dlEvents =>
          let evE := evD ++ [Event.extractionStarted]
          match extract_zip env.zipOk (env.tmpdir ++ ["patch.zip"])
              (env.tmpdir ++ ["extracted"]) env.zipEntries with
          | .error msg => ⟨.failed backup msg, evE ++ [Event.tmpdirRemoved], fs1⟩
          | .ok _written =>
            match copy_top_level_folders env.mergeRemoveOk env.copyOk
                env.srcEntries fs1.entries with
            | .err msg tgt2 evM =>
              ⟨.failed backup msg, evE ++ evM ++ [Event.tmpdirRemoved], ⟨true, tgt2⟩⟩
            | .ok applied tgt2 _w evM =>
              ⟨.done backup applied, evE ++ evM ++ [Event.tmpdirRemoved], ⟨true, tgt2⟩⟩

/-- The effect of one apply session on the target directory tree: the
session clear (patcher.py line 182) followed by the merge (line 191),
returning the resulting children of the target. -/
def sessionTree (removeOk mergeRemoveOk copyOk : String → Bool)
    (src : List MergeEntry) (entries : List FsEntry) :
    Except String (List FsEntry) :=
  match clear_folder_contents ⟨true, entries⟩ true removeOk with
  | .error m => .error m
  | .ok r =>
    match copy_top_level_folders mergeRemoveOk copyOk src r.1.entries with
    | .ok _applied tgt2 _warns _evs => .ok tgt2
    | .err m _tgt2 _evs => .error m

/-- Whether an event is a removal of an entry under the target. -/
def isRemoval : Event → Bool
  | .removedTargetEntry _ => true
  | _ => false

/-- No removal under the target happens strictly before the first
backupCreated event (in particular, no removal at all when there is no
backupCreated event). -/
def backupBeforeRemoval (t : List Event) : Bool :=
  (t.takeWhile (fun e => !(e == Event.backupCreated))).all
    (fun e => !isRemoval e)

/-- Whether a download event is a progress report (of either form). -/
def isProgress : DlEvent → Bool
  | .progress _ _ => true
  | .progressPlain _ => true
  | _ => false

/-- Every chunk written is immediately followed by a progress report. -/
def progressAfterEveryChunk : List DlEvent → Bool
  | [] => true
  | DlEvent.chunk _ :: rest =>
    match rest with
    | e :: rest2 => isProgress e && progressAfterEveryChunk rest2
    | [] => false
  | _ :: rest => progressAfterEveryChunk rest

/-- The backup the session report carries (none when the program crashed
before producing any report). -/
def reportedBackup : Outcome → Option (Option (List String))
  | .done b _ => some b
  | .failed b _ => some b
  | .crashed _ => none

/-- A concrete fully successful environment, used to instantiate the
universally quantified theorems at a specific session. -/
def envAllOk : Env where
  target := ["packcache", "resource"]
  stamp := "20251012-120000"
  targetPresent := true
  targetEntries := [⟨"vanilla", .dir [("textures", .file 1)]⟩, ⟨"note.txt", .file 2⟩]
  backupCopyOk := true
  listOk := true
  removeOk := fun _ => true
  statusOk := true
  contentLength := some 16384
  chunks := [8192, 8192]
  tmpdir := ["tmp", "patcher_abc"]
  zipOk := true
  zipEntries := [⟨["packA", "manifest.json"], false⟩, ⟨["packB", ""], true⟩]
  srcEntries := [⟨"packA", true, .dir [("manifest.json", .file 3)]⟩,
                 ⟨"packB", true, .dir []⟩]
  mergeRemoveOk := fun _ => true
  copyOk := fun _ => true

/-- A session against a target that does not exist prior to the run. -/
def envAbsentTarget : Env := { envAllOk with targetPresent := false }

/-- A session whose archive has two top-level folders and whose environment
makes the directory copy of "packA" fail. -/
def envDirCopyFails : Env :=
  { envAllOk with
    srcEntries := [⟨"packA", true, .dir []⟩, ⟨"packB", true, .dir []⟩],
    copyOk := fun n => !(n == "packA") }

/-- A session whose archive root holds two folders and one file whose copy
fails. -/
def envFileCopyFails : Env :=
  { envAllOk with
    srcEntries := [⟨"packA", true, .dir []⟩, ⟨"extra.txt", false, .file 7⟩,
                   ⟨"packB", true, .dir []⟩],
    copyOk := fun n => !(n == "extra.txt") }

/-- A session where the pre-existing target entry "packA" survives the
session clear (its removal fails there) and cannot be removed during the
merge either, so it collides with the archive folder of the same name. -/
def envRemoveFails : Env :=
  { envAllOk with
    targetEntries := [⟨"packA", .file 0⟩],
    removeOk := fun n => !(n == "packA"),
    srcEntries := [⟨"packA", true, .dir []⟩, ⟨"packB", true, .dir []⟩],
    mergeRemoveOk := fun n => !(n == "packA") }

/-! ## Helper lemmas -/

/-- A trace that starts with the backup event satisfies the
backup-before-removal ordering whatever follows. -/
theorem backupBeforeRemoval_cons (t : List Event) :
    backupBeforeRemoval (Event.backupCreated :: t) = true := by
  simp [backupBeforeRemoval]

/-- The empty trace satisfies the ordering vacuously. -/
theorem backupBeforeRemoval_nil : backupBeforeRemoval [] = true := rfl

/-- Reduction: backup of an existing folder with a successful copy. -/
theorem make_backup_present_ok (es : List FsEntry) (target : List String)
    (stamp : String) :
    make_backup ⟨true, es⟩ true target stamp =
      .ok (some (backupPathOf target stamp), [Event.backupCreated]) := rfl

/-- Reduction: backup of an existing folder with a failing copy. -/
theorem make_backup_present_fail (es : List FsEntry) (target : List String)
    (stamp : String) :
    make_backup ⟨true, es⟩ false target stamp = .error "BackupFailure" := rfl

/-- Reduction: clearing an existing folder with a working enumeration. -/
theorem clear_present_ok (es : List FsEntry) (removeOk : String → Bool) :
    clear_folder_contents ⟨true, es⟩ true removeOk =
      .ok (⟨true, (clearLoop removeOk es).1⟩, (clearLoop removeOk es).2.1,
        (clearLoop removeOk es).2.2) := rfl

/-- Reduction: clearing an existing folder whose enumeration fails. -/
theorem clear_present_fail (es : List FsEntry) (removeOk : String → Bool) :
    clear_folder_contents ⟨true, es⟩ false removeOk = .error "ClearFailure" := rfl

/-- C1: in every session whose target directory exists prior to the run, the
backup is created before any entry under the target is removed: the trace of
`main` never contains a removal event before the backupCreated event, in the
clear-only action and in the apply action alike. -/
theorem backup_precedes_target_removals (env : Env) (a : Action)
    (h : env.targetPresent = true) :
    backupBeforeRemoval (main env a).trace = true := by
  unfold main
  rw [h]
  simp only [if_pos rfl]
  cases hb : env.backupCopyOk
  · simp [make_backup_present_fail, backupBeforeRemoval_nil]
  · cases hl : env.listOk
    · simp [make_backup_present_ok, clear_present_fail, backupBeforeRemoval_cons]
    · cases a
      · simp [make_backup_present_ok, clear_present_ok, backupBeforeRemoval_cons]
      · cases hdl : download_zip env.statusOk env.contentLength env.chunks
        · simp [make_backup_present_ok, clear_present_ok, backupBeforeRemoval_cons]
        · cases hex : extract_zip env.zipOk (env.tmpdir ++ ["patch.zip"])
              (env.tmpdir ++ ["extracted"]) env.zipEntries
          · simp [make_backup_present_ok, clear_present_ok, backupBeforeRemoval_cons]
          · cases hm : copy_top_level_folders env.mergeRemoveOk env.copyOk
                env.srcEntries (clearLoop env.removeOk env.targetEntries).1
            <;> simp [make_backup_present_ok, clear_present_ok, hm,
                  backupBeforeRemoval_cons]

/-- Witness for C1 at a concrete session. -/
theorem backup_precedes_target_removals_witness :
    backupBeforeRemoval (main envAllOk .applyPatch).trace = true :=
  backup_precedes_target_removals envAllOk .applyPatch rfl

/-- A list whose head is followed by a tail ending in a singleton has that
singleton element as its last element. -/
theorem getLast?_cons_append_singleton {α} (a : α) (l : List α) (y : α) :
    (a :: (l ++ [y])).getLast? = some y := by
  rw [← List.cons_append, List.getLast?_concat]

/-- The last element of `x :: (l ++ t)` is the last element of `t`. -/
theorem getLast?_cons_chain {α} (x : α) (l t : List α) (y : α)
    (h : t.getLast? = some y) : (x :: (l ++ t)).getLast? = some y := by
  have ht : t ≠ [] := by intro hnil; rw [hnil] at h; exact Option.noConfusion h
  rw [← List.cons_append, List.getLast?_append_of_ne_nil _ ht]
  exact h

/-- C3: in the apply action, whenever the staging workspace is created, the
session trace ends with its removal — the tmpdir cleanup is the very last
event of the session on every exit path (successful merge, or a failure in
download, extraction or merge); and the workspace is indeed created whenever
the pipeline is reached (backup and clear did not crash the program). -/
theorem staging_workspace_always_removed (env : Env) :
    (Event.tmpdirCreated ∈ (main env .applyPatch).trace →
      (main env .applyPatch).trace.getLast? = some Event.tmpdirRemoved) ∧
    (env.backupCopyOk = true → env.listOk = true →
      Event.tmpdirCreated ∈ (main env .applyPatch).trace) := by
  unfold main
  cases hp : env.targetPresent <;> cases hb : env.backupCopyOk <;>
    cases hl : env.listOk <;>
    simp only [if_pos rfl, Bool.false_eq_true, if_false, if_neg, ite_true,
      ite_false, reduceIte]
  case false.false.false | false.false.true | true.false.false
      | true.false.true =>
    simp [make_backup_present_fail]
  case false.true.false | true.true.false =>
    simp [make_backup_present_ok, clear_present_fail]
  all_goals
    cases hdl : download_zip env.statusOk env.contentLength env.chunks
    case error =>
      simp [make_backup_present_ok, clear_present_ok, List.getLast?_cons_cons,
        getLast?_cons_chain, getLast?_cons_append_singleton]
    case ok =>
      cases hex : extract_zip env.zipOk (env.tmpdir ++ ["patch.zip"])
          (env.tmpdir ++ ["extracted"]) env.zipEntries
      case error =>
        simp [make_backup_present_ok, clear_present_ok, List.getLast?_cons_cons,
          getLast?_cons_chain, getLast?_cons_append_singleton]
      case ok =>
        cases hm : copy_top_level_folders env.mergeRemoveOk env.copyOk
            env.srcEntries (clearLoop env.removeOk (if env.targetPresent then env.targetEntries else [])).1
        all_goals
          simp_all [make_backup_present_ok, clear_present_ok,
            List.getLast?_cons_cons, getLast?_cons_chain,
            getLast?_cons_append_singleton]

/-- Witness for C3 at a concrete session. -/
theorem staging_workspace_always_removed_witness :
    (Event.tmpdirCreated ∈ (main envAllOk .applyPatch).trace →
      (main envAllOk .applyPatch).trace.getLast? = some Event.tmpdirRemoved) ∧
    (envAllOk.backupCopyOk = true → envAllOk.listOk = true →
      Event.tmpdirCreated ∈ (main envAllOk .applyPatch).trace) :=
  staging_workspace_always_removed envAllOk

/-- C5: if the backup copy fails, the session crashes with the backup
failure before anything else happens: the target directory keeps exactly its
prior children, and the trace is empty — no entry was removed, and neither
clear, download, extraction nor merge was ever invoked. -/
theorem backup_failure_leaves_target_untouched (env : Env) (a : Action)
    (h : env.targetPresent = true) (hb : env.backupCopyOk = false) :
    (main env a).outcome = .crashed "BackupFailure" ∧
    (main env a).finalFs.entries = env.targetEntries ∧
    (main env a).trace = [] := by
  unfold main
  rw [h, hb]
  simp [make_backup_present_fail]

/-- Characterisation of the clear loop: the children left behind are exactly
the non-removable ones, one warning per non-removable child, one removal
event per removable child, all in enumeration order. -/
theorem clearLoop_eq (removeOk : String → Bool) (es : List FsEntry) :
    clearLoop removeOk es =
      (es.filter (fun e => !removeOk e.name),
       (es.filter (fun e => !removeOk e.name)).map (fun e => e.name),
       (es.filter (fun e => removeOk e.name)).map
         (fun e => Event.removedTargetEntry e.name)) := by
  induction es with
  | nil => rfl
  | cons e rest ih =>
    simp only [clearLoop, ih]
    cases hr : removeOk e.name <;> simp [List.filter_cons, hr]

/-- C6: clearing an existing, enumerable target is best-effort and maximal:
the operation returns normally with exactly the non-removable children left
in place (every child that can be removed is removed, even when others
fail), one warning per failed child; and the whole operation fails — with
the enumeration error — exactly when the children cannot be listed at
all. -/
theorem clear_best_effort_maximal (entries : List FsEntry) (listOk : Bool)
    (removeOk : String → Bool) :
    clear_folder_contents ⟨true, entries⟩ listOk removeOk =
      (if listOk then
        .ok (⟨true, entries.filter (fun e => !removeOk e.name)⟩,
          (entries.filter (fun e => !removeOk e.name)).map (fun e => e.name),
          (entries.filter (fun e => removeOk e.name)).map
            (fun e => Event.removedTargetEntry e.name))
      else .error "ClearFailure") := by
  cases listOk <;> simp [clear_folder_contents, clearLoop_eq]

/-- C10: when the merge loop returns normally, the applied list it returns
is exactly the names of the top-level directory children of the extraction
root, in enumeration order — each of them was successfully copied (a failed
directory copy aborts the loop instead of returning), and top-level file
children never appear in the list, so the reported applied count never
includes files. -/
theorem merge_applied_is_copied_dirs (removeOk copyOk : String → Bool)
    (src : List MergeEntry) :
    ∀ (tgt : List FsEntry) (applied : List String) (tgt2 : List FsEntry)
      (warns : List String) (evs : List Event),
      copy_top_level_folders removeOk copyOk src tgt =
        .ok applied tgt2 warns evs →
      applied = (src.filter (fun e => e.isDir)).map (fun e => e.name) := by
  induction src with
  | nil =>
    intro tgt applied tgt2 warns evs h
    simp only [copy_top_level_folders] at h
    cases h
    rfl
  | cons e rest ih =>
    intro tgt applied tgt2 warns evs h
    simp only [copy_top_level_folders] at h
    by_cases hd : e.isDir = true
    · rw [if_pos hd] at h
      split at h
      · cases h
      · split at h
        · cases h
          rw [List.filter_cons_of_pos (by simp [hd]), List.map_cons]
          exact congrArg _ (ih _ _ _ _ _ (by assumption))
        · cases h
    · rw [if_neg hd] at h
      have hd2 : e.isDir = false := by
        cases hde : e.isDir
        · rfl
        · exact absurd hde hd
      rw [List.filter_cons_of_neg (by simp [hd2])]
      split at h
      · split at h
        · cases h
          exact ih _ _ _ _ _ (by assumption)
        · cases h
      · split at h
        · cases h
          exact ih _ _ _ _ _ (by assumption)
        · cases h

/-- Witness for C10 at a concrete merge. -/
theorem merge_applied_is_copied_dirs_witness :
    copy_top_level_folders (fun _ => true) (fun _ => true)
        [⟨"packA", true, .dir []⟩, ⟨"readme.txt", false, .file 9⟩,
         ⟨"packB", true, .dir []⟩] [] =
      .ok ["packA", "packB"]
        [⟨"packA", .dir []⟩, ⟨"readme.txt", .file 9⟩, ⟨"packB", .dir []⟩]
        [] [Event.copiedEntry "packA", Event.copiedEntry "readme.txt",
            Event.copiedEntry "packB"] ∧
    ["packA", "packB"] =
      (([⟨"packA", true, .dir []⟩, ⟨"readme.txt", false, .file 9⟩,
         ⟨"packB", true, .dir []⟩] : List MergeEntry).filter
          (fun e => e.isDir)).map (fun e => e.name) :=
  ⟨rfl, merge_applied_is_copied_dirs (fun _ => true) (fun _ => true)
    [⟨"packA", true, .dir []⟩, ⟨"readme.txt", false, .file 9⟩,
     ⟨"packB", true, .dir []⟩] [] ["packA", "packB"]
    [⟨"packA", .dir []⟩, ⟨"readme.txt", .file 9⟩, ⟨"packB", .dir []⟩]
    [] [Event.copiedEntry "packA", Event.copiedEntry "readme.txt",
        Event.copiedEntry "packB"] rfl⟩

/-- Filtering out a name leaves no child of that name behind. -/
theorem any_name_filter (tgt : List FsEntry) (n : String) :
    (tgt.filter (fun f => !(f.name == n))).any (fun f => f.name == n) =
      false := by
  rw [List.any_eq_false]
  intro f hf
  have hm := List.mem_filter.mp hf
  simpa using hm.2

/-- If every directory child of the extraction root can be copied (and any
same-named pre-existing target entry can be removed), the merge loop returns
normally and applies exactly the directory children, whatever file children
do. -/
theorem copy_all_dirs_ok (removeOk copyOk : String → Bool)
    (src : List MergeEntry) :
    ∀ tgt : List FsEntry,
      (∀ e ∈ src, e.isDir = true → copyOk e.name = true ∧ removeOk e.name = true) →
      ∃ tgt2 warns evs,
        copy_top_level_folders removeOk copyOk src tgt =
          .ok ((src.filter (fun e => e.isDir)).map (fun e => e.name))
            tgt2 warns evs := by
  induction src with
  | nil => intro tgt _; exact ⟨tgt, [], [], rfl⟩
  | cons e rest ih =>
    intro tgt h
    have hrest := fun f hf => h f (List.mem_cons_of_mem e hf)
    by_cases hd : e.isDir = true
    · obtain ⟨hc, hr⟩ := h e (List.mem_cons_self e rest) hd
      have hstep : (mergeRemoveExisting removeOk tgt e.name).1.any
          (fun f => f.name == e.name) = false := by
        unfold mergeRemoveExisting
        by_cases hex : tgt.any (fun f => f.name == e.name) = true
        · rw [if_pos hex, if_pos hr]
          exact any_name_filter tgt e.name
        · rw [if_neg hex]
          exact Bool.not_eq_true _ ▸ (by simpa using hex)
      obtain ⟨tgt2, warns, evs, hrec⟩ :=
        ih ((mergeRemoveExisting removeOk tgt e.name).1 ++ [⟨e.name, e.tree⟩])
          hrest
      refine ⟨tgt2, (mergeRemoveExisting removeOk tgt e.name).2.1 ++ warns,
        (mergeRemoveExisting removeOk tgt e.name).2.2 ++
          Event.copiedEntry e.name :: evs, ?_⟩
      simp only [copy_top_level_folders, if_pos hd, hstep, hc,
        Bool.not_true, Bool.or_self, hrec]
      rw [List.filter_cons_of_pos (by simp [hd]), List.map_cons]
      simp
    · have hd2 : e.isDir = false := by
        cases hde : e.isDir
        · rfl
        · exact absurd hde hd
      rw [show ((e :: rest).filter (fun e => e.isDir)) =
          rest.filter (fun e => e.isDir) from
        List.filter_cons_of_neg (by simp [hd2])]
      by_cases hc : copyOk e.name = true
      · obtain ⟨tgt2, warns, evs, hrec⟩ := ih (fileCopyInto tgt e.name e.tree) hrest
        exact ⟨tgt2, warns, Event.copiedEntry e.name :: evs, by
          simp [copy_top_level_folders, if_neg hd, hc, hrec]⟩
      · have hc2 : copyOk e.name = false := by
          cases hce : copyOk e.name
          · rfl
          · exact absurd hce hc
        obtain ⟨tgt2, warns, evs, hrec⟩ := ih tgt hrest
        exact ⟨tgt2, ("Skipped non-dir item: " ++ e.name) :: warns, evs, by
          simp [copy_top_level_folders, if_neg hd, hc2, hrec]⟩

/-- A successful transport makes the download succeed. -/
theorem download_zip_ok (contentLength : Option Nat) (chunks : List Nat) :
    ∃ evs, download_zip true contentLength chunks = .ok evs := by
  unfold download_zip
  by_cases h : contentLength.getD 0 ≠ 0
  · exact ⟨_, by rw [if_neg (by simp), if_pos h]⟩
  · exact ⟨_, by rw [if_neg (by simp), if_neg h]⟩

/-- An archive whose members all have a usable (directory or non-empty
sanitised) name extracts without error. -/
theorem extractLoop_ok (destDir : List String) (entries : List ZipEntry)
    (h : ∀ e ∈ entries, e.isDir = true ∨ sanitizeParts e.parts ≠ []) :
    ∃ w, extractLoop destDir entries = .ok w := by
  induction entries with
  | nil => exact ⟨[], rfl⟩
  | cons e rest ih =>
    obtain ⟨w, hw⟩ := ih (fun f hf => h f (List.mem_cons_of_mem e hf))
    have hmem : extractMember destDir e =
        .ok (destDir ++ sanitizeParts e.parts) := by
      unfold extractMember
      rcases h e (List.mem_cons_self e rest) with hd | hs
      · rw [if_neg (by simp [hd])]
      · rw [if_neg (by simp [List.isEmpty_iff]; intro hc; exact absurd hc hs)]
    exact ⟨(destDir ++ sanitizeParts e.parts) :: w, by
      simp only [extractLoop, hmem, hw]⟩

/-- C7 counterexample: a failure on a top-level DIRECTORY entry is fatal,
contrary to the claim, in both of its forms.  First session: the recursive
copy of "packA" itself fails — the merge aborts, the session ends Failed
(not Done), and the later entry "packB" is never processed.  Second session:
a colliding pre-existing target entry "packA" cannot be removed — the
removal failure is only warned about (lines 136-143), but the unguarded
`shutil.copytree` at line 144 then raises on the surviving destination, with
the same Failed outcome and "packB" again unprocessed. -/
theorem merge_dir_copy_failure_is_fatal :
    (main envDirCopyFails .applyPatch).outcome =
      .failed (some ["packcache", "resource_backup_20251012-120000"])
        "copytree failed" ∧
    (main envDirCopyFails .applyPatch).trace.contains
      (Event.copiedEntry "packB") = false ∧
    (main envRemoveFails .applyPatch).outcome =
      .failed (some ["packcache", "resource_backup_20251012-120000"])
        "copytree failed" ∧
    (main envRemoveFails .applyPatch).trace.contains
      (Event.copiedEntry "packB") = false :=
  ⟨rfl, rfl, rfl, rfl⟩

/-- C7 (amended): only a failure to copy a top-level FILE entry is
non-fatal — the file is skipped with a warning, never appears in the applied
list, the remaining entries are still processed and the session still ends
Done.  Any failure on a DIRECTORY entry is fatal: whether the recursive copy
itself fails, or a colliding pre-existing target entry cannot be removed —
in which case the warned-about removal failure is followed by the unguarded
copytree raising on the surviving destination (see the counterexample) —
the merge aborts and the session ends Failed.  Formally: whenever backup,
clear, download and extraction succeed and no directory child hits either
fatal case — its copy succeeds and any colliding target entry is
removable — the session ends Done and applies exactly the directory
children, no matter which FILE children fail to copy. -/
theorem merge_file_copy_failure_nonfatal (env : Env)
    (hb : env.backupCopyOk = true) (hl : env.listOk = true)
    (hs : env.statusOk = true) (hz : env.zipOk = true)
    (hze : ∀ e ∈ env.zipEntries, e.isDir = true ∨ sanitizeParts e.parts ≠ [])
    (hd : ∀ e ∈ env.srcEntries, e.isDir = true →
      env.copyOk e.name = true ∧ env.mergeRemoveOk e.name = true) :
    (main env .applyPatch).outcome =
      .done (some (backupPathOf env.target env.stamp))
        ((env.srcEntries.filter (fun e => e.isDir)).map (fun e => e.name)) := by
  unfold main
  obtain ⟨evs, hdl⟩ := download_zip_ok env.contentLength env.chunks
  obtain ⟨w, hw⟩ :=
    extractLoop_ok (env.tmpdir ++ ["extracted"]) env.zipEntries hze
  cases hp : env.targetPresent
  · obtain ⟨tgt2, warns, evs2, hm⟩ :=
      copy_all_dirs_ok env.mergeRemoveOk env.copyOk env.srcEntries
        (clearLoop env.removeOk []).1 hd
    simp [hb, hl, hs, hz, make_backup_present_ok, clear_present_ok,
      extract_zip, hdl, hw, hm]
  · obtain ⟨tgt2, warns, evs2, hm⟩ :=
      copy_all_dirs_ok env.mergeRemoveOk env.copyOk env.srcEntries
        (clearLoop env.removeOk env.targetEntries).1 hd
    simp [hb, hl, hs, hz, make_backup_present_ok, clear_present_ok,
      extract_zip, hdl, hw, hm]

/-- Witness for C7 (amended) at a concrete session: the file entry
"extra.txt" fails to copy, yet the session ends Done applying exactly the
two folders. -/
theorem merge_file_copy_failure_nonfatal_witness :
    (main envFileCopyFails .applyPatch).outcome =
      .done (some (backupPathOf envFileCopyFails.target envFileCopyFails.stamp))
        ((envFileCopyFails.srcEntries.filter (fun e => e.isDir)).map
          (fun e => e.name)) :=
  merge_file_copy_failure_nonfatal envFileCopyFails rfl rfl rfl rfl
    (by decide) (by decide)

/-- C2 counterexample: with the target absent prior to the run, the session
still produces a backup — main creates the target (line 160-162 of
patcher.py) before calling make_backup, which therefore sees an existing
(empty) directory and returns a backup path, not None. -/
theorem absent_target_still_produces_backup :
    envAbsentTarget.targetPresent = false ∧
    (main envAbsentTarget .clearOnly).outcome =
      .done (some ["packcache", "resource_backup_20251012-120000"]) [] ∧
    some ["packcache", "resource_backup_20251012-120000"] ≠
      (none : Option (List String)) :=
  ⟨rfl, rfl, by simp⟩

/-- C2 (amended): when the target does not exist prior to the run, the
session still completes, but with a BackupRecord rather than none: main
creates the target first, so make_backup backs up the freshly created empty
directory and returns its sibling backup path.  The clear-only action ends
Done carrying that backup, and the apply action's report — Done on pipeline
success, Failed otherwise — always carries the same backup path. -/
theorem absent_target_session_completes (env : Env)
    (hp : env.targetPresent = false) (hb : env.backupCopyOk = true)
    (hl : env.listOk = true) :
    (main env .clearOnly).outcome =
      .done (some (backupPathOf env.target env.stamp)) [] ∧
    reportedBackup (main env .applyPatch).outcome =
      some (some (backupPathOf env.target env.stamp)) := by
  constructor
  · unfold main
    simp [hp, hb, hl, make_backup_present_ok, clear_present_ok]
  · unfold main
    cases hdl : download_zip env.statusOk env.contentLength env.chunks
    · simp [hp, hb, hl, make_backup_present_ok, clear_present_ok, hdl,
        reportedBackup]
    · cases hex : extract_zip env.zipOk (env.tmpdir ++ ["patch.zip"])
          (env.tmpdir ++ ["extracted"]) env.zipEntries
      · simp [hp, hb, hl, make_backup_present_ok, clear_present_ok, hdl, hex,
          reportedBackup]
      · cases hm : copy_top_level_folders env.mergeRemoveOk env.copyOk
            env.srcEntries (clearLoop env.removeOk []).1
        <;> simp [hp, hb, hl, make_backup_present_ok, clear_present_ok, hdl,
              hex, hm, reportedBackup]

/-- Witness for C2 (amended) at a concrete session. -/
theorem absent_target_session_completes_witness :
    (main envAbsentTarget .clearOnly).outcome =
      .done (some (backupPathOf envAbsentTarget.target envAbsentTarget.stamp))
        [] ∧
    reportedBackup (main envAbsentTarget .applyPatch).outcome =
      some (some (backupPathOf envAbsentTarget.target envAbsentTarget.stamp)) :=
  absent_target_session_completes envAbsentTarget rfl rfl rfl

/-- With a truthy total, the chunk loop emits a progress event right after
every chunk event, so prefixing its events preserves the progress-pairing
check of whatever follows. -/
theorem progress_paired_in_dlLoop (total : Option Nat)
    (ht : total.getD 0 ≠ 0) :
    ∀ (chunks : List Nat) (d : Nat) (tail : List DlEvent),
      progressAfterEveryChunk ((dlLoop total d chunks).1 ++ tail) =
        progressAfterEveryChunk tail := by
  intro chunks
  induction chunks with
  | nil => intro d tail; rfl
  | cons c rest ih =>
    intro d tail
    by_cases hc : c = 0
    · simp only [dlLoop, if_pos hc]
      exact ih _ _
    · simp only [dlLoop, if_neg hc, if_pos ht, List.cons_append]
      simp only [progressAfterEveryChunk, isProgress, Bool.true_and]
      exact ih _ _

/-- With a falsy total, the chunk loop emits no progress event at all. -/
theorem dlLoop_no_progress (total : Option Nat) (ht : total.getD 0 = 0) :
    ∀ (chunks : List Nat) (d : Nat),
      (dlLoop total d chunks).1.all (fun e => !isProgress e) = true := by
  intro chunks
  induction chunks with
  | nil => intro d; rfl
  | cons c rest ih =>
    intro d
    by_cases hc : c = 0
    · simp only [dlLoop, if_pos hc]
      exact ih _
    · simp only [dlLoop, if_neg hc,
        if_neg (show ¬total.getD 0 ≠ 0 by simp [ht])]
      rw [List.all_cons, ih]
      rfl

/-- C8 counterexample: when the server reports no content length, the code
reports no per-chunk progress at all — two chunks are written and no
progress event of any form follows either of them, contrary to the claimed
degraded bytes-so-far-only reporting. -/
theorem no_content_length_no_progress :
    download_zip true none [8192, 100] =
      .ok [DlEvent.chunk 8192, DlEvent.chunk 100, DlEvent.completePlain] ∧
    progressAfterEveryChunk
      [DlEvent.chunk 8192, DlEvent.chunk 100, DlEvent.completePlain] =
      false :=
  ⟨rfl, rfl⟩

/-- C8 (amended): when the server reports a non-zero content length, a
(bytes-so-far, total) progress line follows every chunk written; when no
content length is reported (or it parses to 0, which Python truthiness
treats the same), no per-chunk progress is reported at all — the download
emits no progress event of any form, only the final completion line. -/
theorem download_progress_reporting (contentLength : Option Nat)
    (chunks : List Nat) (evs : List DlEvent)
    (h : download_zip true contentLength chunks = .ok evs) :
    (contentLength.getD 0 ≠ 0 → progressAfterEveryChunk evs = true) ∧
    (contentLength.getD 0 = 0 → evs.all (fun e => !isProgress e) = true) := by
  unfold download_zip at h
  rw [if_neg (by simp)] at h
  by_cases hcl : contentLength.getD 0 ≠ 0
  · rw [if_pos hcl] at h
    cases h
    refine ⟨fun _ => ?_, fun hc => absurd hc hcl⟩
    rw [progress_paired_in_dlLoop contentLength hcl]
    rfl
  · rw [if_neg hcl] at h
    cases h
    refine ⟨fun hc => absurd hc hcl, fun hc => ?_⟩
    rw [List.all_append, dlLoop_no_progress contentLength hc]
    rfl

/-- Witness for C8 (amended) at a concrete download. -/
theorem download_progress_reporting_witness :
    ((some 100 : Option Nat).getD 0 ≠ 0 → progressAfterEveryChunk
      [DlEvent.chunk 60, DlEvent.progress 60 100, DlEvent.chunk 40,
       DlEvent.progress 100 100, DlEvent.completeWithTotal 100 100] = true) ∧
    ((some 100 : Option Nat).getD 0 = 0 →
      ([DlEvent.chunk 60, DlEvent.progress 60 100, DlEvent.chunk 40,
        DlEvent.progress 100 100,
        DlEvent.completeWithTotal 100 100].all (fun e => !isProgress e)) =
        true) :=
  download_progress_reporting (some 100) [60, 40]
    [DlEvent.chunk 60, DlEvent.progress 60 100, DlEvent.chunk 40,
     DlEvent.progress 100 100, DlEvent.completeWithTotal 100 100] rfl

/-- Every path the extraction loop writes is the destination followed by a
sanitised member name: it starts with the destination components and its
remainder holds no "", "." or ".." component. -/
theorem extractLoop_written_under_dest (destDir : List String) :
    ∀ (entries : List ZipEntry) (written : List (List String)),
      extractLoop destDir entries = .ok written →
      ∀ p ∈ written, p.take destDir.length = destDir ∧
        (p.drop destDir.length).all (fun c => !badParts.contains c) = true := by
  intro entries
  induction entries with
  | nil =>
    intro written h p hp
    cases h
    exact absurd hp (List.not_mem_nil p)
  | cons e rest ih =>
    intro written h p hp
    simp only [extractLoop] at h
    cases hmem : extractMember destDir e with
    | error m => rw [hmem] at h; cases h
    | ok p0 =>
      rw [hmem] at h
      cases hrec : extractLoop destDir rest with
      | error m => rw [hrec] at h; cases h
      | ok ps =>
        rw [hrec] at h
        cases h
        have hp0 : p0 = destDir ++ sanitizeParts e.parts := by
          unfold extractMember at hmem
          split at hmem
          · cases hmem
          · cases hmem; rfl
        rcases List.mem_cons.mp hp with hpe | hpr
        · subst hpe
          rw [hp0]
          refine ⟨List.take_left destDir _, ?_⟩
          rw [List.drop_left]
          rw [List.all_eq_true]
          intro c hc
          exact (List.mem_filter.mp hc).2
        · exact ih ps hrec p hpr

/-- C4 counterexample: an archive member whose path resolves outside the
destination directory is not rejected — extraction raises no error and the
member is written (at its sanitised location inside the destination), so the
claimed reject-rather-than-write behaviour does not happen. -/
theorem traversal_entry_not_rejected :
    resolvesOutside ["tmp", "patcher_abc", "extracted"] ["..", "evil.txt"] =
      true ∧
    extract_zip true ["tmp", "patcher_abc", "patch.zip"]
      ["tmp", "patcher_abc", "extracted"] [⟨["..", "evil.txt"], false⟩] =
      .ok [["tmp", "patcher_abc", "extracted", "evil.txt"]] :=
  ⟨rfl, rfl⟩

/-- C4 (amended): entries that would resolve outside the destination are not
rejected; `extractall` instead sanitises every member path — dropping "",
"." and ".." components — and writes it inside the destination.  Every
written path therefore starts with destinationDir and contains no
parent-directory component after it, so extraction never creates or
overwrites an entry outside destinationDir, while raising no error for
traversal entries. -/
theorem extraction_confined_to_destination (zipOk : Bool)
    (zipPath destDir : List String) (entries : List ZipEntry)
    (written : List (List String))
    (h : extract_zip zipOk zipPath destDir entries = .ok written) :
    ∀ p ∈ written, p.take destDir.length = destDir ∧
      (p.drop destDir.length).all (fun c => !badParts.contains c) = true := by
  unfold extract_zip at h
  split at h
  · cases h
  · exact extractLoop_written_under_dest destDir entries written h

/-- Witness for C4 (amended) at a concrete archive. -/
theorem extraction_confined_to_destination_witness :
    ["tmp", "patcher_abc", "extracted", "evil.txt"].take
        (["tmp", "patcher_abc", "extracted"] : List String).length =
      ["tmp", "patcher_abc", "extracted"] ∧
    (["tmp", "patcher_abc", "extracted", "evil.txt"].drop
        (["tmp", "patcher_abc", "extracted"] : List String).length).all
      (fun c => !badParts.contains c) = true :=
  extraction_confined_to_destination true ["tmp", "patcher_abc", "patch.zip"]
    ["tmp", "patcher_abc", "extracted"] [⟨["..", "evil.txt"], false⟩]
    [["tmp", "patcher_abc", "extracted", "evil.txt"]] rfl
    ["tmp", "patcher_abc", "extracted", "evil.txt"] (by simp)

/-- C9: overwrite-idempotence of one apply session's effect on the target
tree — when every prior child of the target is removable, applying a patch
once yields a tree t1 such that applying the same patch to t1 yields t1
again: the session clear empties the target, so the merged result depends
only on the archive. -/
theorem apply_twice_same_tree (removeOk mergeRemoveOk copyOk : String → Bool)
    (src : List MergeEntry) (tgt t1 : List FsEntry)
    (hr : ∀ n, removeOk n = true)
    (h1 : sessionTree removeOk mergeRemoveOk copyOk src tgt = .ok t1) :
    sessionTree removeOk mergeRemoveOk copyOk src t1 = .ok t1 := by
  have hclear : ∀ es : List FsEntry,
      clear_folder_contents ⟨true, es⟩ true removeOk =
        .ok (⟨true, []⟩, [],
          es.map (fun e => Event.removedTargetEntry e.name)) := by
    intro es
    rw [clear_best_effort_maximal]
    simp [hr]
  unfold sessionTree at h1 ⊢
  rw [hclear] at h1 ⊢
  exact h1

/-- Witness for C9 at a concrete patch and target. -/
theorem apply_twice_same_tree_witness :
    sessionTree (fun _ => true) (fun _ => true) (fun _ => true)
      [⟨"packA", true, .dir [("manifest.json", .file 3)]⟩]
      [⟨"packA", .dir [("manifest.json", .file 3)]⟩] =
      .ok [⟨"packA", .dir [("manifest.json", .file 3)]⟩] :=
  apply_twice_same_tree (fun _ => true) (fun _ => true) (fun _ => true)
    [⟨"packA", true, .dir [("manifest.json", .file 3)]⟩]
    [⟨"vanilla", .file 0⟩] [⟨"packA", .dir [("manifest.json", .file 3)]⟩]
    (fun _ => rfl) rfl

/-- Witness for C5 at a concrete session. -/
theorem backup_failure_leaves_target_untouched_witness :
    (main { envAllOk with backupCopyOk := false } .applyPatch).outcome =
        .crashed "BackupFailure" ∧
    (main { envAllOk with backupCopyOk := false } .applyPatch).finalFs.entries =
        { envAllOk with backupCopyOk := false }.targetEntries ∧
    (main { envAllOk with backupCopyOk := false } .applyPatch).trace = [] :=
  backup_failure_leaves_target_untouched
    { envAllOk with backupCopyOk := false } .applyPatch rfl rfl

end Patcher
